import Mathlib

/-!
Shallow embedding of the Data Sweeper pipeline (src/app.py): the in-memory
table model, the three cleaning actions, column projection, the per-file
ingestion loop with the CSV encoding fallback, and the export/conversion
block.  Machine-level details delegated to external libraries (exact float
printing, the xlsx byte layout) are modelled by structural stand-ins that
are irrelevant to the stated claims; each such spot is marked by a comment.
-/

namespace DataSweeper

/-! ## Data model

A Table mirrors a pandas DataFrame as used by the app: an ordered list of
named, typed columns (numeric or categorical/text, the two dtype classes the
app distinguishes via select_dtypes) and row-major cells.  A missing cell
(NaN) is `none`.  Numeric values are modelled as rationals. -/

inductive Value where
  | num (q : ℚ)
  | str (s : String)
deriving DecidableEq, Repr

abbrev Cell := Option Value

inductive ColType where
  | num
  | text
deriving DecidableEq, Repr

structure Header where
  name : String
  ctype : ColType
deriving DecidableEq, Repr

structure Table where
  headers : List Header
  rows : List (List Cell)
deriving DecidableEq, Repr

/-- All rows have one cell per column (a DataFrame invariant). -/
def WellFormed (t : Table) : Prop :=
  ∀ r ∈ t.rows, r.length = t.headers.length

/-- The header of column `i` (defaulting outside range). -/
def headerAt (t : Table) (i : Nat) : Header :=
  t.headers.getD i ⟨"", ColType.text⟩

/-- A cell agrees with the dtype of its column: numeric columns hold
numbers or NaN, object columns hold strings or NaN. -/
def cellOk (ty : ColType) (c : Cell) : Bool :=
  match ty, c with
  | _, none => true
  | ColType.num, some (Value.num _) => true
  | ColType.text, some (Value.str _) => true
  | _, _ => false

/-- Every cell agrees with the dtype of its column, as pandas guarantees
by construction of a DataFrame. -/
def WellTyped (t : Table) : Prop :=
  ∀ r ∈ t.rows, ∀ i, i < t.headers.length →
    cellOk (headerAt t i).ctype (r.getD i none) = true

instance (t : Table) : Decidable (WellFormed t) := by
  unfold WellFormed; exact inferInstance

instance (t : Table) : Decidable (WellTyped t) := by
  unfold WellTyped; exact inferInstance

/-- The cells of column `i`, top to bottom. -/
def colCells (t : Table) (i : Nat) : List Cell :=
  t.rows.map (fun r => r.getD i none)

/-! ## RemoveDuplicates (src/app.py line 55, df.drop_duplicates)

drop_duplicates with default arguments deletes every row that is an exact
full-row duplicate of an earlier row, keeping the first occurrence and
preserving row order. -/

def dedupFirst (seen : List (List Cell)) : List (List Cell) → List (List Cell)
  | [] => []
  | r :: rest =>
    if r ∈ seen then dedupFirst seen rest
    else r :: dedupFirst (r :: seen) rest

def removeDuplicates (t : Table) : Table :=
  { t with rows := dedupFirst [] t.rows }

/-! ## FillMissingNumericMean (src/app.py lines 60-61)

df[numeric_cols] = df[numeric_cols].fillna(df[numeric_cols].mean()):
for each numeric column the mean over its non-missing cells is computed;
fillna with that per-column value replaces each NaN of the column.  For an
all-NaN column the mean is itself NaN and fillna leaves the column
untouched (a NaN entry in the fill value means: do not fill that column).
Non-numeric columns are not selected and stay as they are. -/

def numVal (c : Cell) : Option ℚ :=
  match c with
  | some (Value.num q) => some q
  | _ => none

/-- Mean over the numeric non-missing cells; `none` when there are none
(the NaN mean of an all-missing column). -/
def colMean (cells : List Cell) : Option ℚ :=
  let vs := cells.filterMap numVal
  if vs.length = 0 then none else some (vs.sum / (vs.length : ℚ))

/-- fillna at one cell: a missing cell takes the fill value (itself possibly
missing, in which case nothing changes); a present cell is kept. -/
def fillCell (m : Cell) (c : Cell) : Cell :=
  match c with
  | none => m
  | some v => some v

def fillRow (ms : List Cell) (r : List Cell) : List Cell :=
  List.zipWith fillCell ms r

/-- The per-column fill values of the mean-fill action: the column mean for
numeric columns, no fill for the others. -/
def meanFillValues (t : Table) : List Cell :=
  (List.range t.headers.length).map (fun i =>
    if (headerAt t i).ctype = ColType.num
    then (colMean (colCells t i)).map Value.num
    else none)

def fillMissingNumericMean (t : Table) : Table :=
  { t with rows := t.rows.map (fillRow (meanFillValues t)) }

/-! ## ImputeMixed (src/app.py lines 66-75, SimpleImputer)

The AI-clean button runs two sklearn SimpleImputer passes and writes each
result back into the DataFrame:

  df[numeric cols] = SimpleImputer(strategy="mean").fit_transform(numeric slice)
  df[object cols]  = SimpleImputer(strategy="most_frequent").fit_transform(object slice)

Unlike fillna, fit_transform validates its input and can raise:
  - a slice with zero columns fails sklearn input validation, which
    requires at least one feature (check_array, ensure_min_features = 1);
  - a slice with zero rows fails the same validation, which requires at
    least one sample (ensure_min_samples = 1);
  - a column whose cells are all missing has a NaN statistic, and
    transform drops such columns, so the returned array has fewer columns
    than the DataFrame slice being assigned and the pandas assignment
    raises a shape mismatch.
Each of these surfaces as an uncaught exception of the button handler.
The embedding returns `Except`, with one error tag per failure mode, in
the order the code reaches them (numeric imputer first). -/

inductive ImputeError where
  | noNumericFeatures
  | noSamples
  | numericColumnAllMissing
  | noCategoricalFeatures
  | categoricalColumnAllMissing
deriving DecidableEq, Repr

/-- Indices of the columns of dtype `ty` (df.select_dtypes). -/
def typeIndices (t : Table) (ty : ColType) : List Nat :=
  (List.range t.headers.length).filter (fun i => (headerAt t i).ctype == ty)

def allMissing (cells : List Cell) : Bool :=
  cells.all (fun c => c == none)

/-- Most frequent non-missing value of a column (the most_frequent
statistic).  The tie-break among equally frequent values is a library
detail no claim depends on; here the first encountered maximum is kept. -/
def modeVal (cells : List Cell) : Cell :=
  let vs := cells.filterMap id
  match vs with
  | [] => none
  | v0 :: _ => some (vs.foldl (fun best v =>
      if vs.count best < vs.count v then v else best) v0)

/-- Per-column fill values of the combined imputation: column mean for
numeric columns, most frequent value for categorical ones. -/
def imputeValues (t : Table) : List Cell :=
  (List.range t.headers.length).map (fun i =>
    match (headerAt t i).ctype with
    | ColType.num => (colMean (colCells t i)).map Value.num
    | ColType.text => modeVal (colCells t i))

def imputeMixed (t : Table) : Except ImputeError Table :=
  if (typeIndices t ColType.num).isEmpty then
    Except.error ImputeError.noNumericFeatures
  else if t.rows.isEmpty then
    Except.error ImputeError.noSamples
  else if (typeIndices t ColType.num).any (fun i => allMissing (colCells t i)) then
    Except.error ImputeError.numericColumnAllMissing
  else if (typeIndices t ColType.text).isEmpty then
    Except.error ImputeError.noCategoricalFeatures
  else if (typeIndices t ColType.text).any (fun i => allMissing (colCells t i)) then
    Except.error ImputeError.categoricalColumnAllMissing
  else
    Except.ok { t with rows := t.rows.map (fillRow (imputeValues t)) }

/-! ## Column Projection (src/app.py lines 79-80, df = df[columns])

The multiselect offers the current column names, defaulting to all of
them; df[columns] keeps exactly the chosen columns in the chosen order,
with unchanged rows.  Column names of an ingested DataFrame are unique
(read_csv and read_excel mangle duplicate header names), so a name
identifies the first (only) column with that name. -/

def lookupIdx (names : List String) (n : String) : Option Nat :=
  match names with
  | [] => none
  | m :: rest => if m = n then some 0 else (lookupIdx rest n).map (· + 1)

def projectColumns (t : Table) (names : List String) : Table :=
  let idxs := names.filterMap (fun n => lookupIdx (t.headers.map Header.name) n)
  { headers := idxs.map (fun i => headerAt t i),
    rows := t.rows.map (fun r => idxs.map (fun i => r.getD i none)) }

/-! ## Export / Conversion (src/app.py lines 91-116)

The convert button builds an empty BytesIO buffer and empty name/MIME
strings, serializes the current DataFrame into the buffer for the chosen
target format, derives the output name with Python str.replace (which
substitutes EVERY occurrence of the lowercased original extension, not
just a trailing one), rewinds the buffer with seek(0), and only then, if a
MIME type was set, offers the download; otherwise an error is shown and no
artifact is offered. -/

/-- Scanner of str.replace: while `skip` is positive the characters of an
occurrence already replaced are being consumed; at `skip = 0` a match of
`pat` at the current position emits `rep` and schedules the remaining
`pat.length - 1` matched characters to be skipped. -/
def replaceAllAux (pat rep : List Char) : Nat → List Char → List Char
  | _, [] => []
  | Nat.succ k, _ :: rest => replaceAllAux pat rep k rest
  | 0, c :: rest =>
    if pat ≠ [] ∧ pat.isPrefixOf (c :: rest) then
      rep ++ replaceAllAux pat rep (pat.length - 1) rest
    else
      c :: replaceAllAux pat rep 0 rest

/-- Python str.replace for a non-empty pattern: every non-overlapping
occurrence, scanned left to right, is replaced. -/
def replaceAll (s pat rep : List Char) : List Char :=
  replaceAllAux pat rep 0 s

def pyReplace (s pat rep : String) : String :=
  (replaceAll s.toList pat.toList rep.toList).asString

/-- CSV field quoting (QUOTE_MINIMAL, as the csv writer used by to_csv). -/
def csvField (s : String) : String :=
  if s.toList.any (fun c => c == ',' || c == '\"' || c == '\n') then
    "\"" ++ (s.toList.foldr (fun c acc =>
      if c == '\"' then '\"' :: '\"' :: acc else c :: acc) []).asString ++ "\""
  else s

/-- Text of a cell value.  The exact decimal rendering of numbers is a
library detail no claim inspects; rationals are printed as integer or
numerator/denominator. -/
def renderValue : Value → String
  | Value.num q => if q.den = 1 then toString q.num
                   else toString q.num ++ "/" ++ toString q.den
  | Value.str s => s

def renderCell : Cell → String
  | none => ""
  | some v => csvField (renderValue v)

/-- df.to_csv(buffer, index=False): header line then one line per row,
each terminated by a newline, no index column. -/
def csvString (t : Table) : String :=
  let headerLine := String.intercalate "," (t.headers.map (fun h => csvField h.name))
  let rowLines := t.rows.map (fun r => String.intercalate "," (r.map renderCell))
  String.join ((headerLine :: rowLines).map (fun l => l ++ "\n"))

/-- What the buffer holds after serialization: the full CSV text, or the
complete workbook for the table (the xlsx byte layout is produced by an
external library; the constructor records that the whole table was
serialized). -/
inductive FileData where
  | csvData (s : String)
  | xlsxData (t : Table)
deriving DecidableEq, Repr

/-- Stand-in for the byte length of the serialized data (only used as the
post-write cursor position; no claim depends on its value). -/
def FileData.byteLength : FileData → Nat
  | FileData.csvData s => s.length
  | FileData.xlsxData t => 1 + t.headers.length + t.rows.length

/-- The BytesIO buffer: its contents and its read cursor. -/
structure Buffer where
  data : Option FileData
  pos : Nat
deriving DecidableEq, Repr

def Buffer.empty : Buffer := ⟨none, 0⟩

/-- to_csv / to_excel into the buffer: the complete serialization is
written and the cursor is left at the end. -/
def Buffer.write (_ : Buffer) (d : FileData) : Buffer :=
  ⟨some d, d.byteLength⟩

/-- buffer.seek(0). -/
def Buffer.seekStart (b : Buffer) : Buffer :=
  { b with pos := 0 }

structure DownloadArtifact where
  buffer : Buffer
  fileName : String
  mimeType : String
deriving DecidableEq, Repr

inductive ConvError where
  | conversionIncomplete
deriving DecidableEq, Repr

def excelMime : String :=
  "application/vnd.openxmlformats-officedocument.spreadsheetml.sheet"

/-- The convert-button handler.  `origName` is file.name, `origExt` the
lowercased extension computed at ingestion, `conversionType` the radio
selection. -/
def convertFile (df : Table) (origName origExt conversionType : String) :
    Except ConvError DownloadArtifact :=
  let state :=
    if conversionType = "CSV" then
      (Buffer.empty.write (FileData.csvData (csvString df)),
       pyReplace origName origExt ".csv", "text/csv")
    else if conversionType = "EXCEL" then
      (Buffer.empty.write (FileData.xlsxData df),
       pyReplace origName origExt ".xlsx", excelMime)
    else
      (Buffer.empty, "", "")
  let buf := state.1.seekStart
  if state.2.2 ≠ "" then
    Except.ok ⟨buf, state.2.1, state.2.2⟩
  else
    Except.error ConvError.conversionIncomplete

/-! ## Ingestion (src/app.py lines 16-28)

An uploaded file is a name plus raw byte content behind a shared stream
cursor (Streamlit hands the same file object to both read_csv calls).
read_csv consumes the stream from its CURRENT position to the end — it
never rewinds — decodes with the requested codec and parses.  The reader
consumes the underlying stream in chunks ahead of decoding, so for inputs
below one chunk a decode failure still leaves the cursor at end of
stream. -/

structure ByteStream where
  data : List Nat
  pos : Nat
deriving DecidableEq, Repr

def ByteStream.readToEnd (s : ByteStream) : List Nat × ByteStream :=
  (s.data.drop s.pos, { s with pos := s.data.length })

/-- UTF-8 decoding of a byte list, `none` on any malformed sequence
(Python raises UnicodeDecodeError there): continuation bytes are
0x80-0xBF, overlong encodings and surrogate code points are rejected. -/
def utf8Cont (b : Nat) : Bool := 0x80 ≤ b && b < 0xC0

def utf8Decode : List Nat → Option (List Char)
  | [] => some []
  | b :: bs =>
    if b < 0x80 then
      (utf8Decode bs).map (fun cs => Char.ofNat b :: cs)
    else if b < 0xC2 then none
    else if b < 0xE0 then
      match bs with
      | b2 :: bs2 =>
        if utf8Cont b2 then
          (utf8Decode bs2).map (fun cs => Char.ofNat ((b - 0xC0) * 64 + (b2 - 0x80)) :: cs)
        else none
      | [] => none
    else if b < 0xF0 then
      match bs with
      | b2 :: b3 :: bs3 =>
        if utf8Cont b2 && utf8Cont b3
            && (b != 0xE0 || 0xA0 ≤ b2) && (b != 0xED || b2 < 0xA0) then
          (utf8Decode bs3).map (fun cs =>
            Char.ofNat ((b - 0xE0) * 4096 + (b2 - 0x80) * 64 + (b3 - 0x80)) :: cs)
        else none
      | _ => none
    else if b < 0xF5 then
      match bs with
      | b2 :: b3 :: b4 :: bs4 =>
        if utf8Cont b2 && utf8Cont b3 && utf8Cont b4
            && (b != 0xF0 || 0x90 ≤ b2) && (b != 0xF4 || b2 < 0x90) then
          (utf8Decode bs4).map (fun cs =>
            Char.ofNat ((b - 0xF0) * 262144 + (b2 - 0x80) * 4096
              + (b3 - 0x80) * 64 + (b4 - 0x80)) :: cs)
        else none
      | _ => none
    else none

inductive Encoding where
  | utf8
  | latin1
deriving DecidableEq, Repr

/-- Latin-1 maps every byte to the code point of the same value, so it
never fails. -/
def decodeBytes : Encoding → List Nat → Option (List Char)
  | Encoding.utf8, bs => utf8Decode bs
  | Encoding.latin1, bs => some (bs.map Char.ofNat)

inductive ReadError where
  | unicodeDecodeError
  | emptyDataError
deriving DecidableEq, Repr

/-! ### CSV parsing (pd.read_csv with on_bad_lines="skip")

Lines are separated by newlines; blank lines are skipped; the first
remaining line is the header.  A data row with more fields than the header
is a bad line and is dropped; a shorter row is padded with missing cells.
A column all of whose non-empty fields parse as numbers (vacuously, an
all-empty column too) gets the numeric dtype, any other column the object
dtype; an empty field is NaN.  Quoting and exotic numeric formats are
dialect details no claim touches. -/

def splitOnChar (sep : Char) (cs : List Char) : List (List Char) :=
  cs.foldr (fun c acc =>
    match acc with
    | [] => [[c]]
    | a :: as => if c == sep then [] :: a :: as else (c :: a) :: as) [[]]

def digitsVal (cs : List Char) : Option Nat :=
  if cs.isEmpty || !cs.all Char.isDigit then none
  else some (cs.foldl (fun acc c => acc * 10 + (c.toNat - '0'.toNat)) 0)

def parseRat (cs : List Char) : Option ℚ :=
  let signBody : ℚ × List Char :=
    match cs with
    | '-' :: r => (-1, r)
    | '+' :: r => (1, r)
    | _ => (1, cs)
  match splitOnChar '.' signBody.2 with
  | [ip] => (digitsVal ip).map (fun n => signBody.1 * (n : ℚ))
  | [ip, fp] =>
    if ip.isEmpty && fp.isEmpty then none
    else
      match (if ip.isEmpty then some 0 else digitsVal ip),
            (if fp.isEmpty then some 0 else digitsVal fp) with
      | some a, some b =>
        some (signBody.1 * ((a : ℚ) + (b : ℚ) / ((10 : ℚ) ^ fp.length)))
      | _, _ => none
  | _ => none

def parseCsv (cs : List Char) : Except ReadError Table :=
  let lines := (splitOnChar '\n' cs).filter (fun l => !l.isEmpty)
  match lines with
  | [] => Except.error ReadError.emptyDataError
  | headerLine :: dataLines =>
    let headerFields := splitOnChar ',' headerLine
    let n := headerFields.length
    let rawRows := (dataLines.map (splitOnChar ',')).filter (fun fs => fs.length ≤ n)
    let fieldAt := fun (r : List (List Char)) (j : Nat) => r.getD j []
    let colTy := fun (j : Nat) =>
      if rawRows.all (fun r => (fieldAt r j).isEmpty || (parseRat (fieldAt r j)).isSome)
      then ColType.num else ColType.text
    let toCell := fun (ty : ColType) (f : List Char) =>
      if f.isEmpty then none
      else
        match ty, parseRat f with
        | ColType.num, some q => some (Value.num q)
        | ColType.num, none => some (Value.str f.asString)
        | ColType.text, _ => some (Value.str f.asString)
    Except.ok
      { headers := (List.range n).map (fun j => ⟨(headerFields.getD j []).asString, colTy j⟩),
        rows := rawRows.map (fun r => (List.range n).map (fun j => toCell (colTy j) (fieldAt r j))) }

/-- pd.read_csv on a stream with a given encoding: consume the stream from
its current position, decode, parse.  A decode failure surfaces as
UnicodeDecodeError; empty remaining input as EmptyDataError. -/
def read_csv (enc : Encoding) (s : ByteStream) : Except ReadError Table × ByteStream :=
  let bs := s.readToEnd
  match decodeBytes enc bs.1 with
  | none => (Except.error ReadError.unicodeDecodeError, bs.2)
  | some cs => (parseCsv cs, bs.2)

/-- The CSV branch of the loop: try UTF-8, and only on UnicodeDecodeError
retry with Latin-1 on the SAME stream object, which the failed attempt has
already consumed (there is no seek back to the start).  Any other error of
either attempt propagates uncaught. -/
def ingestCsv (s : ByteStream) : Except ReadError Table × ByteStream :=
  match read_csv Encoding.utf8 s with
  | (Except.error ReadError.unicodeDecodeError, s1) => read_csv Encoding.latin1 s1
  | r => r

/-! ### Per-file dispatch and loop (src/app.py lines 16-28) -/

structure UploadedFile where
  name : String
  content : List Nat
deriving DecidableEq, Repr

/-- os.path.splitext on a base file name: split before the last dot,
provided some earlier character of the name is not a dot. -/
def splitextList (cs : List Char) : List Char × List Char :=
  match (cs.enum.filter (fun p => p.2 == '.')).getLast? with
  | none => (cs, [])
  | some p =>
    if (cs.take p.1).any (fun c => c != '.') then (cs.take p.1, cs.drop p.1)
    else (cs, [])

def splitext (s : String) : String × String :=
  let p := splitextList s.toList
  (p.1.asString, p.2.asString)

/-- str.lower character by character (extensions are ASCII). -/
def strLower (s : String) : String :=
  (s.toList.map Char.toLower).asString

/-- The outcome of one iteration of the upload loop, as far as the claims
observe it: a parsed table handed to the rest of the pipeline, the
st.error notification plus `continue` for an unsupported extension, or an
uncaught exception that aborts the script run. -/
inductive FileOutcome where
  | parsed (t : Table)
  | unsupported (ext : String)
  | fatal (e : ReadError)
deriving DecidableEq, Repr

def FileOutcome.isFatal : FileOutcome → Bool
  | FileOutcome.fatal _ => true
  | _ => false

/-- One iteration of the loop body up to the point a DataFrame exists.
The spreadsheet reader is an external collaborator, so it is a parameter;
no claim depends on what it does. -/
def processFile (readXlsx : List Nat → Except ReadError Table)
    (f : UploadedFile) : FileOutcome :=
  let ext := strLower (splitext f.name).2
  if ext = ".csv" then
    match (ingestCsv ⟨f.content, 0⟩).1 with
    | Except.ok t => FileOutcome.parsed t
    | Except.error e => FileOutcome.fatal e
  else if ext = ".xlsx" then
    match readXlsx f.content with
    | Except.ok t => FileOutcome.parsed t
    | Except.error e => FileOutcome.fatal e
  else
    FileOutcome.unsupported ext

/-- The upload loop: files are handled one by one; an unsupported file is
skipped with `continue`, but an uncaught exception ends the whole run, so
nothing after a fatal outcome is processed. -/
def processFiles (readXlsx : List Nat → Except ReadError Table) :
    List UploadedFile → List FileOutcome
  | [] => []
  | f :: rest =>
    match processFile readXlsx f with
    | FileOutcome.fatal e => [FileOutcome.fatal e]
    | o => o :: processFiles readXlsx rest

/-! ## Auxiliary predicates and sample data -/

/-- An already-clean table: no duplicate rows and no missing cells. -/
def Clean (t : Table) : Prop :=
  t.rows.Nodup ∧ ∀ r ∈ t.rows, ∀ c ∈ r, c ≠ none

instance (t : Table) : Decidable (Clean t) := by
  unfold Clean; exact inferInstance

/-- A small concrete table used by the witness statements: one numeric and
one text column, two distinct complete rows. -/
def sampleTable : Table :=
  { headers := [⟨"a", ColType.num⟩, ⟨"c", ColType.text⟩],
    rows := [[some (Value.num 1), some (Value.str "x")],
             [some (Value.num 2), some (Value.str "y")]] }

/-- A clean table with a single text column and no numeric column. -/
def soloTextTable : Table :=
  { headers := [⟨"name", ColType.text⟩],
    rows := [[some (Value.str "a")]] }

/-- A table with one numeric column whose cells are all missing, next to a
numeric column with data. -/
def allMissingColTable : Table :=
  { headers := [⟨"a", ColType.num⟩, ⟨"b", ColType.num⟩],
    rows := [[some (Value.num 1), none], [some (Value.num 3), none]] }

/-- A table with one missing numeric cell, for the mean-fill witness. -/
def gapTable : Table :=
  { headers := [⟨"a", ColType.num⟩, ⟨"c", ColType.text⟩],
    rows := [[some (Value.num 1), some (Value.str "x")],
             [none, some (Value.str "y")],
             [some (Value.num 2), none]] }

/-- A concrete stand-in for the external spreadsheet reader, used by the
witnesses (the claims hold for every reader). -/
def rxStub : List Nat → Except ReadError Table :=
  fun _ => Except.error ReadError.emptyDataError

/-! ## Helper lemmas -/

lemma getD_map_range {α : Type} {n i : Nat} (g : Nat → α) (d : α) (h : i < n) :
    ((List.range n).map g).getD i d = g i := by
  rw [List.getD_eq_getElem _ _ (by simpa using h), List.getElem_map, List.getElem_range]

lemma map_getD_range {α : Type} (l : List α) (d : α) :
    (List.range l.length).map (fun i => l.getD i d) = l := by
  apply List.ext_getElem
  · simp
  · intro i h1 h2
    rw [List.getElem_map, List.getElem_range, List.getD_eq_getElem _ _ h2]

lemma getD_zipWith {α : Type} (f : α → α → α) (as bs : List α) (d : α) {i : Nat}
    (h1 : i < as.length) (h2 : i < bs.length) :
    (List.zipWith f as bs).getD i d = f (as.getD i d) (bs.getD i d) := by
  rw [List.getD_eq_getElem _ _ (by simp [List.length_zipWith]; omega),
    List.getElem_zipWith, List.getD_eq_getElem _ _ h1, List.getD_eq_getElem _ _ h2]

lemma fillCell_none (c : Cell) : fillCell none c = c := by
  cases c <;> rfl

lemma fillCell_some_eq (m : Value) (c : Cell) :
    fillCell (some m) c = some (c.getD m) := by
  cases c <;> rfl

/-- fillna changes nothing on a row without missing cells (given fill
values for every column). -/
lemma fillRow_eq_self : ∀ (ms r : List Cell), r.length ≤ ms.length →
    (∀ c ∈ r, c ≠ none) → fillRow ms r = r
  | _, [], _, _ => by simp [fillRow]
  | [], c :: r, hlen, _ => by simp at hlen
  | m :: ms, c :: r, hlen, hc => by
    have hc0 : c ≠ none := hc c (List.mem_cons_self c r)
    obtain ⟨v, rfl⟩ := Option.ne_none_iff_exists'.mp hc0
    simp only [fillRow, List.zipWith_cons_cons, fillCell]
    exact congrArg _ (fillRow_eq_self ms r (by simpa using hlen)
      (fun c hcm => hc c (List.mem_cons_of_mem _ hcm)))

/-! ## Lemmas on dedupFirst -/

lemma mem_dedupFirst {x : List Cell} :
    ∀ (l seen : List (List Cell)), x ∈ dedupFirst seen l → x ∈ l ∧ x ∉ seen
  | [], seen, h => by simp [dedupFirst] at h
  | r :: rest, seen, h => by
    by_cases hr : r ∈ seen
    · simp only [dedupFirst, if_pos hr] at h
      obtain ⟨h1, h2⟩ := mem_dedupFirst rest seen h
      exact ⟨List.mem_cons_of_mem _ h1, h2⟩
    · simp only [dedupFirst, if_neg hr] at h
      rcases List.mem_cons.mp h with h' | h'
      · exact ⟨h' ▸ List.mem_cons_self _ _, h' ▸ hr⟩
      · obtain ⟨h1, h2⟩ := mem_dedupFirst rest (r :: seen) h'
        exact ⟨List.mem_cons_of_mem _ h1, fun hx => h2 (List.mem_cons_of_mem _ hx)⟩

lemma nodup_dedupFirst : ∀ (l seen : List (List Cell)), (dedupFirst seen l).Nodup
  | [], seen => by simp [dedupFirst]
  | r :: rest, seen => by
    by_cases hr : r ∈ seen
    · simpa only [dedupFirst, if_pos hr] using nodup_dedupFirst rest seen
    · simp only [dedupFirst, if_neg hr, List.nodup_cons]
      refine ⟨fun hmem => ?_, nodup_dedupFirst rest (r :: seen)⟩
      exact (mem_dedupFirst rest (r :: seen) hmem).2 (List.mem_cons_self _ _)

lemma sublist_dedupFirst : ∀ (l seen : List (List Cell)), (dedupFirst seen l).Sublist l
  | [], _ => by simp [dedupFirst]
  | r :: rest, seen => by
    by_cases hr : r ∈ seen
    · simpa only [dedupFirst, if_pos hr] using (sublist_dedupFirst rest seen).cons r
    · simpa only [dedupFirst, if_neg hr] using (sublist_dedupFirst rest (r :: seen)).cons₂ r

lemma dedupFirst_eq_self : ∀ (l seen : List (List Cell)), l.Nodup →
    (∀ x ∈ l, x ∉ seen) → dedupFirst seen l = l
  | [], _, _, _ => rfl
  | r :: rest, seen, hnd, hdis => by
    have hr : r ∉ seen := hdis r (List.mem_cons_self _ _)
    simp only [dedupFirst, if_neg hr]
    refine congrArg _ (dedupFirst_eq_self rest (r :: seen) (List.nodup_cons.mp hnd).2 ?_)
    intro x hx
    simp only [List.mem_cons, not_or]
    exact ⟨fun he => (List.nodup_cons.mp hnd).1 (he ▸ hx), hdis x (List.mem_cons_of_mem _ hx)⟩

/-! ## C4 — RemoveDuplicates is idempotent -/

/-- C4: RemoveDuplicates is idempotent — applying it twice yields the same
table as applying it once; moreover the surviving rows are a duplicate-free
subsequence of the original rows, so first occurrences are kept in order. -/
theorem claim4_remove_duplicates_idempotent (t : Table) :
    removeDuplicates (removeDuplicates t) = removeDuplicates t
    ∧ (removeDuplicates t).rows.Sublist t.rows
    ∧ (removeDuplicates t).rows.Nodup := by
  refine ⟨?_, sublist_dedupFirst t.rows [], nodup_dedupFirst t.rows []⟩
  simp only [removeDuplicates]
  exact congrArg _ (dedupFirst_eq_self _ []
    (nodup_dedupFirst t.rows []) (fun x _ => List.not_mem_nil x))

/-! ## Export helpers -/

lemma convertFile_csv (df : Table) (n e : String) :
    convertFile df n e "CSV" =
      Except.ok ⟨⟨some (FileData.csvData (csvString df)), 0⟩,
        pyReplace n e ".csv", "text/csv"⟩ := rfl

lemma convertFile_excel (df : Table) (n e : String) :
    convertFile df n e "EXCEL" =
      Except.ok ⟨⟨some (FileData.xlsxData df), 0⟩,
        pyReplace n e ".xlsx", excelMime⟩ := rfl

lemma convertFile_other (df : Table) (n e ct : String)
    (h1 : ct ≠ "CSV") (h2 : ct ≠ "EXCEL") :
    convertFile df n e ct = Except.error ConvError.conversionIncomplete := by
  simp [convertFile, h1, h2, Buffer.empty, Buffer.seekStart]

/-! ## C8 — export without a resolved target format -/

/-- C8: when the chosen conversion type resolves neither to CSV nor to
Excel, the convert handler fails with ConversionIncomplete and offers no
download artifact. -/
theorem claim8_conversion_incomplete (df : Table) (n e ct : String)
    (h1 : ct ≠ "CSV") (h2 : ct ≠ "EXCEL") :
    convertFile df n e ct = Except.error ConvError.conversionIncomplete :=
  convertFile_other df n e ct h1 h2

theorem claim8_witness :
    ("JSON" ≠ "CSV" ∧ "JSON" ≠ "EXCEL")
    ∧ convertFile sampleTable "d.csv" ".csv" "JSON"
        = Except.error ConvError.conversionIncomplete :=
  ⟨⟨by decide, by decide⟩,
    claim8_conversion_incomplete sampleTable "d.csv" ".csv" "JSON" (by decide) (by decide)⟩

/-! ## C9 — the download buffer is fully written and rewound -/

/-- C9: every successful export hands the download boundary a buffer whose
contents are the complete serialization of the table in the target format
and whose read position has been reset to the start. -/
theorem claim9_buffer_complete_and_rewound (df : Table) (n e ct : String)
    (dl : DownloadArtifact) (h : convertFile df n e ct = Except.ok dl) :
    dl.buffer.pos = 0
    ∧ (dl.buffer.data = some (FileData.csvData (csvString df))
       ∨ dl.buffer.data = some (FileData.xlsxData df)) := by
  by_cases h1 : ct = "CSV"
  · subst h1
    rw [convertFile_csv] at h
    cases h
    exact ⟨rfl, Or.inl rfl⟩
  · by_cases h2 : ct = "EXCEL"
    · subst h2
      rw [convertFile_excel] at h
      cases h
      exact ⟨rfl, Or.inr rfl⟩
    · rw [convertFile_other df n e ct h1 h2] at h
      cases h

theorem claim9_witness :
    convertFile sampleTable "d.csv" ".csv" "CSV"
      = Except.ok ⟨⟨some (FileData.csvData (csvString sampleTable)), 0⟩, "d.csv", "text/csv"⟩
    ∧ ((⟨⟨some (FileData.csvData (csvString sampleTable)), 0⟩, "d.csv", "text/csv"⟩ :
          DownloadArtifact).buffer.pos = 0
       ∧ ((⟨⟨some (FileData.csvData (csvString sampleTable)), 0⟩, "d.csv", "text/csv"⟩ :
          DownloadArtifact).buffer.data = some (FileData.csvData (csvString sampleTable))
          ∨ (⟨⟨some (FileData.csvData (csvString sampleTable)), 0⟩, "d.csv", "text/csv"⟩ :
          DownloadArtifact).buffer.data = some (FileData.xlsxData sampleTable))) :=
  ⟨by rfl, claim9_buffer_complete_and_rewound sampleTable "d.csv" ".csv" "CSV" _ (by rfl)⟩

/-! ## C7 — derived output file name and MIME type -/

lemma replaceAllAux_skip_all (pat rep : List Char) :
    ∀ (l : List Char) (k : Nat), l.length ≤ k → replaceAllAux pat rep k l = []
  | [], k, _ => by cases k <;> rfl
  | c :: rest, Nat.succ k, h =>
    replaceAllAux_skip_all pat rep rest k (by simpa using h)

/-- str.replace on a name that ends with the pattern and contains no other
occurrence of it: exactly the trailing occurrence is replaced. -/
lemma replaceAll_append (pat rep : List Char) (hp : pat ≠ []) :
    ∀ stem : List Char,
      (∀ i, i < stem.length → ¬ (pat.isPrefixOf ((stem ++ pat).drop i) = true)) →
      replaceAll (stem ++ pat) pat rep = stem ++ rep
  | [], _ => by
    obtain ⟨p, ps, rfl⟩ := List.exists_cons_of_ne_nil hp
    have hpre : (p :: ps).isPrefixOf (p :: ps) = true :=
      List.isPrefixOf_iff_prefix.mpr (List.prefix_refl _)
    show replaceAllAux (p :: ps) rep 0 ([] ++ p :: ps) = [] ++ rep
    simp only [List.nil_append, replaceAllAux]
    rw [if_pos ⟨hp, hpre⟩,
      replaceAllAux_skip_all _ _ ps ((p :: ps).length - 1) (by simp)]
    simp
  | c :: stem, h => by
    have h0 : ¬ ((pat.isPrefixOf (c :: (stem ++ pat))) = true) := by
      simpa using h 0 (by simp)
    have hrec := replaceAll_append pat rep hp stem (fun i hi => by
      simpa [List.drop_succ_cons] using h (i + 1) (by simpa using Nat.succ_lt_succ hi))
    show replaceAllAux pat rep 0 ((c :: stem) ++ pat) = (c :: stem) ++ rep
    simp only [List.cons_append, replaceAllAux]
    rw [if_neg (fun hand => h0 hand.2)]
    exact congrArg (List.cons c) hrec

lemma pyReplace_trailing_ext (stem pat rep : String) (hp : pat.toList ≠ [])
    (h : ∀ i, i < stem.toList.length →
      ¬ (pat.toList.isPrefixOf ((stem.toList ++ pat.toList).drop i) = true)) :
    pyReplace (stem ++ pat) pat rep = stem ++ rep := by
  have h1 : (stem ++ pat).toList = stem.toList ++ pat.toList := rfl
  show (replaceAll (stem ++ pat).toList pat.toList rep.toList).asString = stem ++ rep
  rw [h1, replaceAll_append pat.toList rep.toList hp stem.toList h]
  rfl

/-- C7 (counterexample): for the original name "a.csv.csv" (extension
".csv") exported to Excel, the code derives "a.xlsx.xlsx" — every
occurrence of the extension substring is replaced — whereas replacing only
the extension would give "a.csv.xlsx". -/
theorem claim7_counterexample :
    (convertFile sampleTable "a.csv.csv" ".csv" "EXCEL").toOption.map
        DownloadArtifact.fileName = some "a.xlsx.xlsx"
    ∧ "a.xlsx.xlsx" ≠ "a.csv" ++ ".xlsx" := by
  refine ⟨rfl, by decide⟩

/-- C7 (amended): when the original name consists of a stem followed by the
(lowercased) extension and the extension substring occurs nowhere else in
the name, Export derives the output name by replacing that trailing
extension with the target extension and pairs it with the MIME type of the
target format; in general the code substitutes every case-sensitive
occurrence of the lowercased extension substring in the name. -/
theorem claim7_derived_name_and_mime (df : Table) (stem ext : String)
    (hp : ext.toList ≠ [])
    (h : ∀ i, i < stem.toList.length →
      ¬ (ext.toList.isPrefixOf ((stem.toList ++ ext.toList).drop i) = true)) :
    convertFile df (stem ++ ext) ext "CSV"
      = Except.ok ⟨⟨some (FileData.csvData (csvString df)), 0⟩, stem ++ ".csv", "text/csv"⟩
    ∧ convertFile df (stem ++ ext) ext "EXCEL"
      = Except.ok ⟨⟨some (FileData.xlsxData df), 0⟩, stem ++ ".xlsx", excelMime⟩ := by
  rw [convertFile_csv, convertFile_excel,
    pyReplace_trailing_ext stem ext ".csv" hp h,
    pyReplace_trailing_ext stem ext ".xlsx" hp h]
  exact ⟨rfl, rfl⟩

theorem claim7_witness :
    (".csv".toList ≠ []
     ∧ ∀ i, i < "data".toList.length →
        ¬ (".csv".toList.isPrefixOf (("data".toList ++ ".csv".toList).drop i) = true))
    ∧ convertFile sampleTable ("data" ++ ".csv") ".csv" "CSV"
        = Except.ok ⟨⟨some (FileData.csvData (csvString sampleTable)), 0⟩,
            "data" ++ ".csv", "text/csv"⟩
    ∧ convertFile sampleTable ("data" ++ ".csv") ".csv" "EXCEL"
        = Except.ok ⟨⟨some (FileData.xlsxData sampleTable), 0⟩,
            "data" ++ ".xlsx", excelMime⟩ :=
  ⟨⟨by decide, by decide⟩,
    (claim7_derived_name_and_mime sampleTable "data" ".csv" (by decide) (by decide)).1,
    (claim7_derived_name_and_mime sampleTable "data" ".csv" (by decide) (by decide)).2⟩

/-! ## C2 — the Latin-1 fallback does not see the full input -/

/-- C2 (code evaluated at the failing input): for the CSV bytes
61 FF 0A — the letter a, an invalid UTF-8 byte, a newline — the UTF-8
attempt consumes the stream and fails with UnicodeDecodeError, and the
Latin-1 retry then reads from the stream position left behind (the end,
position 3), sees empty input and raises an uncaught EmptyDataError; a
Latin-1 parse of the complete byte content from position 0 would instead
succeed with a one-column table.  The claimed behaviour — the fallback
re-parses the identical complete byte content — does not hold: the code
never rewinds the stream between the two attempts. -/
theorem claim2_fallback_reads_consumed_stream :
    (read_csv Encoding.utf8 ⟨[0x61, 0xFF, 0x0A], 0⟩).1
      = Except.error ReadError.unicodeDecodeError
    ∧ (read_csv Encoding.utf8 ⟨[0x61, 0xFF, 0x0A], 0⟩).2.pos = 3
    ∧ (ingestCsv ⟨[0x61, 0xFF, 0x0A], 0⟩).1 = Except.error ReadError.emptyDataError
    ∧ (read_csv Encoding.latin1 ⟨[0x61, 0xFF, 0x0A], 0⟩).1
      = Except.ok ⟨[⟨"aÿ", ColType.num⟩], []⟩ :=
  ⟨rfl, rfl, rfl, rfl⟩

/-! ## C5 — unsupported extensions are skipped, other files continue -/

lemma processFile_unsupported (rx : List Nat → Except ReadError Table)
    (f : UploadedFile) (h1 : strLower (splitext f.name).2 ≠ ".csv")
    (h2 : strLower (splitext f.name).2 ≠ ".xlsx") :
    processFile rx f = FileOutcome.unsupported (strLower (splitext f.name).2) := by
  simp [processFile, h1, h2]

lemma processFiles_insert_skipped (rx : List Nat → Except ReadError Table)
    (f : UploadedFile) (ext : String)
    (hf : processFile rx f = FileOutcome.unsupported ext) :
    ∀ (xs ys : List UploadedFile),
      (∀ o ∈ processFiles rx xs, o.isFatal = false) →
      processFiles rx (xs ++ f :: ys)
        = processFiles rx xs ++ FileOutcome.unsupported ext :: processFiles rx ys
  | [], ys, _ => by
    simp only [List.nil_append, processFiles, hf]
  | x :: xs, ys, hpre => by
    rcases hx : processFile rx x with t | s | e
    · have hrest : ∀ o ∈ processFiles rx xs, o.isFatal = false := by
        intro o ho
        exact hpre o (by simp [processFiles, hx, ho])
      simp only [List.cons_append, processFiles, hx, List.append_eq,
        processFiles_insert_skipped rx f ext hf xs ys hrest]
    · have hrest : ∀ o ∈ processFiles rx xs, o.isFatal = false := by
        intro o ho
        exact hpre o (by simp [processFiles, hx, ho])
      simp only [List.cons_append, processFiles, hx, List.append_eq,
        processFiles_insert_skipped rx f ext hf xs ys hrest]
    · exfalso
      have := hpre (FileOutcome.fatal e) (by simp [processFiles, hx])
      simp [FileOutcome.isFatal] at this

/-- C5: a file whose (case-insensitively compared) extension is neither
.csv nor .xlsx yields the UnsupportedFormat notification and is skipped,
and — provided the files before it do not abort the run themselves — every
other uploaded file is processed exactly as it would be without it. -/
theorem claim5_unsupported_file_skipped (rx : List Nat → Except ReadError Table)
    (xs ys : List UploadedFile) (f : UploadedFile)
    (h1 : strLower (splitext f.name).2 ≠ ".csv")
    (h2 : strLower (splitext f.name).2 ≠ ".xlsx")
    (hpre : ∀ o ∈ processFiles rx xs, o.isFatal = false) :
    processFile rx f = FileOutcome.unsupported (strLower (splitext f.name).2)
    ∧ processFiles rx (xs ++ f :: ys)
        = processFiles rx xs
          ++ FileOutcome.unsupported (strLower (splitext f.name).2) :: processFiles rx ys :=
  ⟨processFile_unsupported rx f h1 h2,
    processFiles_insert_skipped rx f _ (processFile_unsupported rx f h1 h2) xs ys hpre⟩

/-- The witness runs the loop on one .txt file followed by one well-formed
.csv file: the .txt file is reported unsupported and the .csv file is
still parsed (the byte list spells the text a,b newline 1,2 newline). -/
theorem claim5_witness :
    (strLower (splitext "notes.txt").2 = ".txt"
     ∧ strLower (splitext "notes.txt").2 ≠ ".csv"
     ∧ strLower (splitext "notes.txt").2 ≠ ".xlsx")
    ∧ processFiles rxStub
        [⟨"notes.txt", [104, 105]⟩, ⟨"d.csv", [97, 44, 98, 10, 49, 44, 50, 10]⟩]
      = FileOutcome.unsupported (strLower (splitext "notes.txt").2)
          :: processFiles rxStub [⟨"d.csv", [97, 44, 98, 10, 49, 44, 50, 10]⟩] :=
  ⟨⟨by decide, by decide, by decide⟩, by
    have h := (claim5_unsupported_file_skipped rxStub []
      [⟨"d.csv", [97, 44, 98, 10, 49, 44, 50, 10]⟩] ⟨"notes.txt", [104, 105]⟩
      (by decide) (by decide) (by simp [processFiles])).2
    simpa [processFiles] using h⟩

/-! ## Column-level behaviour of fillna -/

lemma length_meanFillValues (t : Table) :
    (meanFillValues t).length = t.headers.length := by
  simp [meanFillValues]

lemma length_imputeValues (t : Table) :
    (imputeValues t).length = t.headers.length := by
  simp [imputeValues]

lemma getD_meanFillValues (t : Table) {i : Nat} (hi : i < t.headers.length) :
    (meanFillValues t).getD i none =
      if (headerAt t i).ctype = ColType.num
      then (colMean (colCells t i)).map Value.num
      else none := by
  unfold meanFillValues
  exact getD_map_range _ none hi

lemma getD_imputeValues (t : Table) {i : Nat} (hi : i < t.headers.length) :
    (imputeValues t).getD i none =
      match (headerAt t i).ctype with
      | ColType.num => (colMean (colCells t i)).map Value.num
      | ColType.text => modeVal (colCells t i) := by
  unfold imputeValues
  exact getD_map_range _ none hi

/-- Column `i` of a table whose rows were all filled with the per-column
values `ms`: each cell of the original column filled with entry `i` of
`ms`. -/
lemma colCells_map_fillRow (t : Table) (ms : List Cell)
    (hms : ms.length = t.headers.length) (hwf : WellFormed t)
    {i : Nat} (hi : i < t.headers.length) :
    (t.rows.map (fillRow ms)).map (fun r => r.getD i none)
      = (colCells t i).map (fillCell (ms.getD i none)) := by
  unfold colCells
  rw [List.map_map, List.map_map]
  refine List.map_congr_left (fun r hr => ?_)
  exact getD_zipWith fillCell ms r none (by omega) (by rw [hwf r hr]; exact hi)

/-- C3: after FillMissingNumericMean, a numeric column that had at least
one non-missing value has its column mean defined, each of its previously
missing cells now holds that mean, its non-missing cells are unchanged,
and it contains zero missing values; every non-numeric column is unchanged
cell for cell. -/
theorem claim3_fill_missing_numeric_mean (t : Table)
    (hwf : WellFormed t) (hwt : WellTyped t) (i : Nat) (hi : i < t.headers.length) :
    ((headerAt t i).ctype = ColType.num →
      (∃ c0 ∈ colCells t i, c0 ≠ none) →
      ∃ m, colMean (colCells t i) = some m
        ∧ colCells (fillMissingNumericMean t) i
            = (colCells t i).map (fun c => some (c.getD (Value.num m)))
        ∧ ∀ c ∈ colCells (fillMissingNumericMean t) i, c ≠ none)
    ∧ ((headerAt t i).ctype = ColType.text →
        colCells (fillMissingNumericMean t) i = colCells t i) := by
  have hcol : colCells (fillMissingNumericMean t) i
      = (colCells t i).map (fillCell ((meanFillValues t).getD i none)) :=
    colCells_map_fillRow t (meanFillValues t) (length_meanFillValues t) hwf hi
  constructor
  · intro hnum hex
    obtain ⟨c0, hc0mem, hc0⟩ := hex
    -- the witnessing cell is a numeric value, by well-typedness
    obtain ⟨r, hr, hrc⟩ := List.mem_map.mp hc0mem
    have hok := hwt r hr i hi
    rw [hnum, hrc] at hok
    have hq : ∃ q, c0 = some (Value.num q) := by
      cases c0 with
      | none => exact absurd rfl hc0
      | some v' =>
        cases v' with
        | num q => exact ⟨q, rfl⟩
        | str s => simp [cellOk] at hok
    obtain ⟨q, hq⟩ := hq
    have hvs : q ∈ (colCells t i).filterMap numVal :=
      List.mem_filterMap.mpr ⟨c0, hc0mem, by rw [hq]; rfl⟩
    have hlen : ((colCells t i).filterMap numVal).length ≠ 0 :=
      fun h0 => by simp [List.length_eq_zero.mp h0] at hvs
    refine ⟨((colCells t i).filterMap numVal).sum
        / (((colCells t i).filterMap numVal).length : ℚ), ?_, ?_, ?_⟩
    · simp only [colMean, if_neg hlen]
    · rw [hcol, getD_meanFillValues t hi, if_pos hnum]
      rw [show colMean (colCells t i)
          = some (((colCells t i).filterMap numVal).sum
              / (((colCells t i).filterMap numVal).length : ℚ)) by
        simp only [colMean, if_neg hlen]]
      exact List.map_congr_left (fun c _ => fillCell_some_eq _ c)
    · intro c hc
      rw [hcol] at hc
      obtain ⟨c', _, hc'⟩ := List.mem_map.mp hc
      cases c' with
      | none =>
        rw [← hc', getD_meanFillValues t hi, if_pos hnum]
        simp only [colMean, if_neg hlen, fillCell, Option.map_some']
        exact Option.some_ne_none _
      | some v' => rw [← hc']; exact Option.some_ne_none _
  · intro htext
    rw [hcol, getD_meanFillValues t hi, htext]
    simp only [reduceCtorEq, if_false]
    exact (List.map_congr_left (fun c _ => fillCell_none c)).trans (List.map_id _)

theorem claim3_witness :
    (WellFormed gapTable ∧ WellTyped gapTable
     ∧ (headerAt gapTable 0).ctype = ColType.num
     ∧ (∃ c0 ∈ colCells gapTable 0, c0 ≠ none))
    ∧ (∃ m, colMean (colCells gapTable 0) = some m
        ∧ colCells (fillMissingNumericMean gapTable) 0
            = (colCells gapTable 0).map (fun c => some (c.getD (Value.num m)))
        ∧ ∀ c ∈ colCells (fillMissingNumericMean gapTable) 0, c ≠ none) :=
  ⟨⟨by decide, by decide, by decide, ⟨some (Value.num 1), by decide, by decide⟩⟩,
    (claim3_fill_missing_numeric_mean gapTable (by decide) (by decide) 0 (by decide)).1
      (by decide) ⟨some (Value.num 1), by decide, by decide⟩⟩

/-- C10: a numeric column all of whose cells are missing is left entirely
missing by FillMissingNumericMean (the mean over zero non-missing values
is undefined, so fillna receives NaN for that column and does not fill),
and the operation is total — it completes without error. -/
theorem claim10_all_missing_column_kept (t : Table) (hwf : WellFormed t)
    (i : Nat) (hi : i < t.headers.length)
    (hall : ∀ c ∈ colCells t i, c = none) :
    colMean (colCells t i) = none
    ∧ colCells (fillMissingNumericMean t) i = colCells t i
    ∧ ∀ c ∈ colCells (fillMissingNumericMean t) i, c = none := by
  have hvs : (colCells t i).filterMap numVal = [] := by
    rw [List.filterMap_eq_nil_iff]
    intro c hc
    rw [hall c hc]
    rfl
  have hmean : colMean (colCells t i) = none := by
    simp [colMean, hvs]
  have hfill : (meanFillValues t).getD i none = none := by
    rw [getD_meanFillValues t hi]
    by_cases h : (headerAt t i).ctype = ColType.num <;> simp [h, hmean]
  have hcol0 : colCells (fillMissingNumericMean t) i
      = (colCells t i).map (fillCell ((meanFillValues t).getD i none)) :=
    colCells_map_fillRow t (meanFillValues t) (length_meanFillValues t) hwf hi
  have hcol : colCells (fillMissingNumericMean t) i = colCells t i := by
    rw [hcol0, hfill]
    exact (List.map_congr_left (fun c _ => fillCell_none c)).trans (List.map_id _)
  exact ⟨hmean, hcol, fun c hc => hall c (hcol ▸ hc)⟩

theorem claim10_witness :
    (WellFormed allMissingColTable
     ∧ (headerAt allMissingColTable 1).ctype = ColType.num
     ∧ ∀ c ∈ colCells allMissingColTable 1, c = none)
    ∧ (colMean (colCells allMissingColTable 1) = none
       ∧ colCells (fillMissingNumericMean allMissingColTable) 1
           = colCells allMissingColTable 1
       ∧ ∀ c ∈ colCells (fillMissingNumericMean allMissingColTable) 1, c = none) :=
  ⟨⟨by decide, by decide, by decide⟩,
    claim10_all_missing_column_kept allMissingColTable (by decide) 1 (by decide) (by decide)⟩

/-! ## C6 — projection with the full column set -/

lemma lookupIdx_getElem_of_nodup :
    ∀ (l : List String), l.Nodup → ∀ (i : Nat) (h : i < l.length),
      lookupIdx l l[i] = some i
  | [], _, i, h => by simp at h
  | m :: rest, hnd, 0, h => by simp [lookupIdx]
  | m :: rest, hnd, i + 1, h => by
    have hlt : i < rest.length := by simpa using h
    have hne : m ≠ rest[i] :=
      fun he => (List.nodup_cons.mp hnd).1 (he ▸ List.getElem_mem hlt)
    have := lookupIdx_getElem_of_nodup rest (List.nodup_cons.mp hnd).2 i hlt
    simp [lookupIdx, hne, this]

lemma filterMap_of_getElem_eq_some {f : String → Option Nat} :
    ∀ (l : List String) (k : Nat),
      (∀ (i : Nat) (h : i < l.length), f l[i] = some (k + i)) →
      l.filterMap f = List.range' k l.length
  | [], _, _ => by simp
  | x :: xs, k, hf => by
    have h0 : f x = some k := by simpa using hf 0 (by simp)
    have hrest : ∀ (i : Nat) (h : i < xs.length), f xs[i] = some ((k + 1) + i) := by
      intro i h
      have := hf (i + 1) (by simpa using Nat.succ_lt_succ h)
      simpa [Nat.add_assoc, Nat.add_comm 1 i] using this
    simp only [List.filterMap_cons, h0, List.length_cons, List.range'_succ,
      filterMap_of_getElem_eq_some xs (k + 1) hrest]

/-- C6: projecting onto the full list of column names — the default
multiselect choice — returns the table unchanged: same content, column
order, row count and row order.  (Column names of an ingested DataFrame
are unique, which the hypothesis records.) -/
theorem claim6_full_projection_identity (t : Table) (hwf : WellFormed t)
    (hnd : (t.headers.map Header.name).Nodup) :
    projectColumns t (t.headers.map Header.name) = t := by
  have hidx : (t.headers.map Header.name).filterMap
      (fun n => lookupIdx (t.headers.map Header.name) n) = List.range t.headers.length := by
    rw [List.range_eq_range']
    have := filterMap_of_getElem_eq_some (f := fun n => lookupIdx (t.headers.map Header.name) n)
      (t.headers.map Header.name) 0
      (fun i h => by
        rw [Nat.zero_add]
        exact lookupIdx_getElem_of_nodup _ hnd i h)
    simpa using this
  show Table.mk _ _ = t
  rw [hidx]
  cases t with
  | mk hs rs =>
    simp only [Table.mk.injEq]
    constructor
    · show (List.range hs.length).map (fun i => hs.getD i ⟨"", ColType.text⟩) = hs
      exact map_getD_range hs _
    · refine (List.map_congr_left (fun r hr => ?_)).trans (List.map_id rs)
      have hlen : r.length = hs.length := hwf r hr
      show (List.range hs.length).map (fun i => r.getD i none) = r
      rw [← hlen]
      exact map_getD_range r none

theorem claim6_witness :
    (WellFormed sampleTable ∧ (sampleTable.headers.map Header.name).Nodup)
    ∧ projectColumns sampleTable (sampleTable.headers.map Header.name) = sampleTable :=
  ⟨⟨by decide, by decide⟩,
    claim6_full_projection_identity sampleTable (by decide) (by decide)⟩

/-! ## C1 — the cleaning actions on clean tables -/

lemma table_rows_congr {t : Table} {rs : List (List Cell)} (h : rs = t.rows) :
    Table.mk t.headers rs = t := by
  cases t
  rw [h]

lemma fillRows_eq_self (t : Table) (ms : List Cell)
    (hms : ms.length = t.headers.length) (hwf : WellFormed t)
    (hfull : ∀ r ∈ t.rows, ∀ c ∈ r, c ≠ none) :
    t.rows.map (fillRow ms) = t.rows :=
  (List.map_congr_left (fun r hr =>
    fillRow_eq_self ms r (by rw [hwf r hr, hms]) (hfull r hr))).trans (List.map_id _)

lemma not_allMissing_of_clean (t : Table) (hwf : WellFormed t)
    (hfull : ∀ r ∈ t.rows, ∀ c ∈ r, c ≠ none) (hne : t.rows ≠ [])
    (ty : ColType) :
    ∀ i ∈ typeIndices t ty, ¬ (allMissing (colCells t i) = true) := by
  intro i hi hall
  have hilt : i < t.headers.length :=
    List.mem_range.mp (List.mem_filter.mp hi).1
  cases hrows : t.rows with
  | nil => exact hne hrows
  | cons r0 rest =>
    have hr0 : r0 ∈ t.rows := hrows ▸ List.mem_cons_self _ _
    have hhead : (r0.getD i none == none) = true := by
      have := List.all_eq_true.mp hall (r0.getD i none)
      refine this ?_
      show r0.getD i none ∈ t.rows.map (fun r => r.getD i none)
      exact List.mem_map.mpr ⟨r0, hr0, rfl⟩
    have hlt : i < r0.length := by rw [hwf r0 hr0]; exact hilt
    have hmem : r0.getD i none ∈ r0 := by
      rw [List.getD_eq_getElem _ _ hlt]
      exact List.getElem_mem hlt
    exact hfull r0 hr0 _ hmem (by simpa using hhead)

/-- C1 (counterexample): a table with a single text column and one
complete row is already clean — no duplicate rows, no missing cells — yet
ImputeMixed fails on it: its numeric slice has zero columns, which the
numeric imputer rejects.  The claimed behaviour — every cleaning action
completes without fatal error and leaves a clean table unchanged, in
particular ImputeMixed on a table with no numeric columns — does not
hold. -/
theorem claim1_counterexample :
    Clean soloTextTable ∧ WellFormed soloTextTable
    ∧ imputeMixed soloTextTable = Except.error ImputeError.noNumericFeatures :=
  ⟨by decide, by decide, rfl⟩

/-- C1 (amended): on every well-formed, already-clean table (no duplicate
rows, no missing cells) RemoveDuplicates and FillMissingNumericMean
complete and leave the table unchanged; ImputeMixed completes and leaves
the table unchanged provided the table also has at least one numeric
column, at least one categorical/text column and at least one row —
without these the sklearn imputation passes raise. -/
theorem claim1_clean_actions_no_op (t : Table) (hwf : WellFormed t)
    (hclean : Clean t) :
    removeDuplicates t = t
    ∧ fillMissingNumericMean t = t
    ∧ (typeIndices t ColType.num ≠ [] → typeIndices t ColType.text ≠ [] →
        t.rows ≠ [] → imputeMixed t = Except.ok t) := by
  obtain ⟨hnd, hfull⟩ := hclean
  refine ⟨?_, ?_, ?_⟩
  · show Table.mk t.headers (dedupFirst [] t.rows) = t
    exact table_rows_congr
      (dedupFirst_eq_self t.rows [] hnd (fun x _ => List.not_mem_nil x))
  · show Table.mk t.headers (t.rows.map (fillRow (meanFillValues t))) = t
    exact table_rows_congr
      (fillRows_eq_self t (meanFillValues t) (length_meanFillValues t) hwf hfull)
  · intro h1 h2 h3
    have hc1 : ¬ ((typeIndices t ColType.num).isEmpty = true) :=
      fun he => h1 (List.isEmpty_iff.mp he)
    have hc2 : ¬ (t.rows.isEmpty = true) :=
      fun he => h3 (List.isEmpty_iff.mp he)
    have hc3 : ¬ ((typeIndices t ColType.num).any
        (fun i => allMissing (colCells t i)) = true) := by
      intro hany
      obtain ⟨i, hi, hall⟩ := List.any_eq_true.mp hany
      exact not_allMissing_of_clean t hwf hfull h3 ColType.num i hi hall
    have hc4 : ¬ ((typeIndices t ColType.text).isEmpty = true) :=
      fun he => h2 (List.isEmpty_iff.mp he)
    have hc5 : ¬ ((typeIndices t ColType.text).any
        (fun i => allMissing (colCells t i)) = true) := by
      intro hany
      obtain ⟨i, hi, hall⟩ := List.any_eq_true.mp hany
      exact not_allMissing_of_clean t hwf hfull h3 ColType.text i hi hall
    show imputeMixed t = Except.ok t
    unfold imputeMixed
    rw [if_neg hc1, if_neg hc2, if_neg hc3, if_neg hc4, if_neg hc5]
    exact congrArg Except.ok (table_rows_congr
      (fillRows_eq_self t (imputeValues t) (length_imputeValues t) hwf hfull))

theorem claim1_witness :
    (WellFormed sampleTable ∧ Clean sampleTable
     ∧ typeIndices sampleTable ColType.num ≠ []
     ∧ typeIndices sampleTable ColType.text ≠ []
     ∧ sampleTable.rows ≠ [])
    ∧ removeDuplicates sampleTable = sampleTable
    ∧ fillMissingNumericMean sampleTable = sampleTable
    ∧ imputeMixed sampleTable = Except.ok sampleTable :=
  ⟨⟨by decide, by decide, by decide, by decide, by decide⟩,
    (claim1_clean_actions_no_op sampleTable (by decide) (by decide)).1,
    (claim1_clean_actions_no_op sampleTable (by decide) (by decide)).2.1,
    (claim1_clean_actions_no_op sampleTable (by decide) (by decide)).2.2
      (by decide) (by decide) (by decide)⟩

end DataSweeper
